import Mathlib

/-!
Verification of the scheduling/supervision core of `FFmpeg_script.py`.

The Python module coordinates the synchronized start and liveness supervision of
several video-capture tasks.  Pure control logic (schedule construction, the
release loop, the supervisor poll) is embedded as Lean functions; the external
`ffmpeg` collaborator (probing, recording) is passed in as an environment, and
Python exceptions are modelled with an `Except` monad over an explicit error
type.  Python `float` values are modelled by `ℚ`.
-/

/-- Python exceptions raised by the script, one constructor per distinct
error site (the messages of the `ValueError`s in the source are pairwise
distinct, so constructors faithfully separate them).  -/
inductive PyErr where
  /-- ValueError "Number of delays must be equal to number of input streams"
  raised in `main` (line 131). -/
  | configError : PyErr
  /-- ValueError "No video stream found" raised in `get_stream_delay` (line 44). -/
  | noVideoStream : PyErr
  /-- ValueError raised by Python `min` on an empty sequence (line 95 when the
  queue is empty). -/
  | minEmptyArg : PyErr
  /-- ValueError raised by Python `float` on a non-numeric value (line 45). -/
  | floatConvError : String → PyErr
  /-- StopIteration raised by `next` on an exhausted generator (line 41). -/
  | stopIteration : PyErr
  /-- KeyError on a dict lookup, carrying the missing key. -/
  | keyError : String → PyErr
  /-- ffmpeg.Error raised by `ffmpeg.probe` (line 40), carrying a message. -/
  | ffmpegError : String → PyErr
  /-- NameError: the named global is not defined (line 69 uses `get_filename`,
  which the module never defines). -/
  | nameError : String → PyErr
  /-- IndexError on a list subscript (line 142). -/
  | indexError : PyErr
  /-- AttributeError: calling `.group` on the `None` returned by a failed
  `re.search` (line 55). -/
  | attributeError : String → PyErr
deriving DecidableEq

/-- Values stored in an ffprobe stream dict.  `num q` models any value Python
`float` accepts (JSON numbers and numeric strings); `str s` models a value
`float` rejects. -/
inductive PyVal where
  | str : String → PyVal
  | num : ℚ → PyVal
deriving DecidableEq

/-- An ffprobe stream entry: a Python dict with string keys. -/
abbrev StreamDict := List (String × PyVal)

/-- Python dict lookup returning `none` when the key is absent. -/
def dictGet (d : StreamDict) (k : String) : Option PyVal :=
  (d.find? (fun p => p.1 = k)).map Prod.snd

/-- The external `ffmpeg.probe` collaborator: for a stream name it yields the
`streams` list of the probe result, or fails with an `ffmpeg.Error` message. -/
abbrev ProbeEnv := String → Except String (List StreamDict)

/-- Python `float(v)`: succeeds on numeric values, raises ValueError otherwise. -/
def pyFloat : PyVal → Except PyErr ℚ
  | .num q => .ok q
  | .str s => .error (.floatConvError s)

/-- Line 41: `next(stream for stream in probe["streams"] if stream["codec_type"] == "video")`.
A missing `codec_type` key raises KeyError inside the generator; an exhausted
generator makes `next` (called without a default) raise StopIteration. -/
def findVideoStream : List StreamDict → Except PyErr StreamDict
  | [] => .error .stopIteration
  | s :: rest =>
    match dictGet s "codec_type" with
    | none => .error (.keyError "codec_type")
    | some v => if v = .str "video" then .ok s else findVideoStream rest

/-- Lines 33-45, `get_stream_delay`: probe the stream, select the first video
stream, guard against a falsy (empty) dict, and return `float(video_stream["start_time"])`. -/
def get_stream_delay (env : ProbeEnv) (stream_name : String) : Except PyErr ℚ :=
  match env stream_name with
  | .error m => .error (.ffmpegError m)
  | .ok streams =>
    match findVideoStream streams with
    | .error e => .error e
    | .ok video_stream =>
      if video_stream = [] then
        .error .noVideoStream
      else
        match dictGet video_stream "start_time" with
        | none => .error (.keyError "start_time")
        | some v => pyFloat v

/-- Python truthiness of the optional `delays` argument: `if delays:` is false
both for `None` and for an empty list. -/
def pyTruthy : Option (List ℚ) → Bool
  | none => false
  | some l => !l.isEmpty

/-- Lines 88-92: probe every source in input order, pairing each with its
delay; the first probe failure aborts the whole build. -/
def probeAll (env : ProbeEnv) : List String → Except PyErr (List (String × ℚ))
  | [] => .ok []
  | n :: rest =>
    match get_stream_delay env n with
    | .error e => .error e
    | .ok d =>
      match probeAll env rest with
      | .error e => .error e
      | .ok q => .ok ((n, d) :: q)

/-- The key order used by `queue.sort(key=lambda x: x[1])` (line 93). -/
def delayLe (a b : String × ℚ) : Prop := a.2 ≤ b.2

instance : DecidableRel delayLe := fun a b => inferInstanceAs (Decidable (a.2 ≤ b.2))

instance : IsTotal (String × ℚ) delayLe := ⟨fun a b => le_total a.2 b.2⟩

instance : IsTrans (String × ℚ) delayLe := ⟨fun _ _ _ h h2 => le_trans h h2⟩

/-- Minimum of the second components, as computed by
`min(queue, key=lambda x: x[1])[1]` (line 95) on a non-empty list. -/
def minSnd : List (String × ℚ) → ℚ
  | [] => 0
  | p :: rest => rest.foldl (fun acc q => min acc q.2) p.2

/-- Lines 84-92: build the (source, delay) pair list, either from the supplied
delays (`zip`) or by probing every source. -/
def pairSources (input_stream_names : List String) (delays : Option (List ℚ))
    (env : ProbeEnv) : Except PyErr (List (String × ℚ)) :=
  if pyTruthy delays then
    .ok (input_stream_names.zip (delays.getD []))
  else
    probeAll env input_stream_names

/-- Lines 93-100: stable-sort the queue by delay (Python `list.sort` is stable;
modelled by the stable `insertionSort`), take the minimum delay (Python `min`
raises ValueError on an empty sequence), and subtract it from every delay. -/
def normalizeQueue (queue : List (String × ℚ)) : Except PyErr (List (String × ℚ)) :=
  let sorted := queue.insertionSort delayLe
  if sorted.isEmpty then
    .error .minEmptyArg
  else
    .ok (sorted.map (fun p => (p.1, p.2 - minSnd sorted)))

/-- Lines 75-100, `create_queue`: pair sources with delays, then sort and
normalize. -/
def create_queue (input_stream_names : List String) (delays : Option (List ℚ))
    (env : ProbeEnv) : Except PyErr (List (String × ℚ)) :=
  match pairSources input_stream_names delays env with
  | .error e => .error e
  | .ok queue => normalizeQueue queue

/-- Lines 129-132 of `main`: the mismatched-count check (only reached when
`delays` is truthy, i.e. non-None and non-empty) followed by `create_queue`.
The subsequent launch and supervision stages are modelled separately. -/
def main_setup (input_stream_names : List String) (delays : Option (List ℚ))
    (env : ProbeEnv) : Except PyErr (List (String × ℚ)) :=
  match delays with
  | some ds =>
    if ds.isEmpty then
      create_queue input_stream_names (some ds) env
    else if input_stream_names.length ≠ ds.length then
      .error .configError
    else
      create_queue input_stream_names (some ds) env
  | none => create_queue input_stream_names none env

/-- Match the regex fragment `\d{1,3}\.` at the head of `cs`: a greedy run of
one to three digits followed by a literal dot.  When the digit run at this
position is longer than three characters no backtrack can succeed (every
shorter prefix is still followed by a digit, never by a dot), so the match at
this start position fails. -/
def matchOctetDot (cs : List Char) : Option (List Char × List Char) :=
  let ds := cs.takeWhile (fun c => c.isDigit)
  let rest := cs.dropWhile (fun c => c.isDigit)
  if ds.length = 0 ∨ 3 < ds.length then none
  else
    match rest with
    | [] => none
    | c :: rest2 => if c = '.' then some (ds ++ [c], rest2) else none

/-- Match the whole pattern `\d{1,3}\.\d{1,3}\.\d{1,3}\.\d{1,3}` at the head
of `cs`; the final group takes up to three digits greedily. -/
def matchIpAt (cs : List Char) : Option (List Char) := do
  let (g1, r1) ← matchOctetDot cs
  let (g2, r2) ← matchOctetDot r1
  let (g3, r3) ← matchOctetDot r2
  let ds := r3.takeWhile (fun c => c.isDigit)
  if ds.length = 0 then none else some (g1 ++ g2 ++ g3 ++ ds.take 3)

/-- Leftmost search: try the pattern at every start position from the left,
as Python `re.search` does. -/
def searchIpAux : List Char → Option (List Char)
  | [] => none
  | c :: cs =>
    match matchIpAt (c :: cs) with
    | some m => some m
    | none => searchIpAux cs

/-- Line 55: `re.search(r"\d{1,3}\.\d{1,3}\.\d{1,3}\.\d{1,3}", stream_name)`,
returning the matched text of group 0 when a match exists. -/
def re_search_ip (s : String) : Option String :=
  (searchIpAux s.data).map String.mk

/-- A wall-clock instant as returned by `datetime.now()`.  The fields printed
by the `strftime` format used in the script stop at whole seconds; `subsec`
carries the sub-second part, which the format discards. -/
structure PyDateTime where
  year : ℕ
  month : ℕ
  day : ℕ
  hour : ℕ
  minute : ℕ
  second : ℕ
  subsec : ℚ
deriving DecidableEq

/-- Zero-padded two-digit decimal field, as `strftime` renders `%m` etc. -/
def pad2 (n : ℕ) : String := if n < 10 then "0" ++ toString n else toString n

/-- Zero-padded four-digit decimal field, as `strftime` renders `%Y`. -/
def pad4 (n : ℕ) : String :=
  if n < 10 then "000" ++ toString n
  else if n < 100 then "00" ++ toString n
  else if n < 1000 then "0" ++ toString n
  else toString n

/-- The format string `%Y-%m-%d_%H-%M-%S` of line 57: whole-second resolution,
no sub-second field. -/
def strftimeYmdHms (t : PyDateTime) : String :=
  pad4 t.year ++ "-" ++ pad2 t.month ++ "-" ++ pad2 t.day ++ "_" ++
    pad2 t.hour ++ "-" ++ pad2 t.minute ++ "-" ++ pad2 t.second

/-- Lines 48-57, `make_filename`: extract the first IPv4-looking substring of
the stream name (calling `.group(0)` on the `None` of a failed search raises
AttributeError) and append the formatted current time and the extension. -/
def make_filename (now : PyDateTime) (stream_name : String) : Except PyErr String :=
  match re_search_ip stream_name with
  | none => .error (.attributeError "group")
  | some ip => .ok (ip ++ "_" ++ strftimeYmdHms now ++ ".mp4")

/-- A capture-task handle: the started thread recording one source.  `tid` is
a fresh identifier standing for Python object identity, so distinct handles
never compare equal. -/
structure CaptureTask where
  tid : ℕ
  source : String
  filename : String
deriving DecidableEq

/-- Whether the module's global namespace binds the name `get_filename` used
at line 69.  The module defines `make_filename` (line 48) but never
`get_filename`, so this is `false`. -/
def get_filename_defined : Bool := false

/-- Lines 60-72, `create_thread`: the `args` tuple of the Thread constructor
is built eagerly, which evaluates `get_filename(input_stream_name)`.  Since
the module never defines `get_filename`, this raises NameError before any
thread is created; the branch below it is what the call would do if the name
resolved to the filename helper the module actually defines. -/
def create_thread (now : PyDateTime) (input_stream_name : String)
    (_audio_stream_name : Option String) (fresh : ℕ) : Except PyErr CaptureTask :=
  if get_filename_defined then
    match make_filename now input_stream_name with
    | .error e => .error e
    | .ok f => .ok ⟨fresh, input_stream_name, f⟩
  else
    .error (.nameError "get_filename")

/-- Lines 103-119, `start_queue`, the release scheduler.  Wall-clock reads are
modelled by an abstract tick sequence `clock`: tick 0 is `begin = time()`, and
each evaluation of the busy-wait condition `time() - begin < delay` consumes
one further tick.  `hcl` states that the clock eventually passes every
deadline (otherwise the busy-wait of line 115 spins forever).  The launch of
a source is recorded as the tick at which its wait exited, i.e. the first tick
`t ≥ k` with `clock t - begin ≥ delay`.  The capture-task construction itself
is the collaborator `create_thread` (see `get_filename_defined`). -/
def start_queue_go (clock : ℕ → ℚ) (hcl : ∀ d k, ∃ j, d ≤ clock (k + j))
    (tbegin : ℚ) : List (String × ℚ) → ℕ → List (String × ℕ)
  | [], _ => []
  | (stream_name, delay) :: rest, k =>
    (stream_name, k + Nat.find (hcl (tbegin + delay) k)) ::
      start_queue_go clock hcl tbegin rest (k + Nat.find (hcl (tbegin + delay) k) + 1)

/-- The release scheduler applied to a whole queue: `begin := clock 0`, waits
start from tick 1, entries are drained strictly in list order (`queue.pop(0)`)
and the launch ticks are returned position by position. -/
def start_queue (clock : ℕ → ℚ) (hcl : ∀ d k, ∃ j, d ≤ clock (k + j))
    (queue : List (String × ℚ)) : List (String × ℕ) :=
  start_queue_go clock hcl (clock 0) queue 1

/-- Python list subscript `l[i]`: IndexError when out of range. -/
def pyGet (l : List String) (i : ℕ) : Except PyErr String :=
  match l.get? i with
  | some x => .ok x
  | none => .error .indexError

/-- Lines 136-143: one pass of the supervisor's `for thread in threads` loop.
`alive` is the liveness oracle (`thread.is_alive()` at poll time, queried by
`tid` since Python threads compare by identity); `relaunch` is the capture
collaborator invoked as `create_thread(input_stream_names[ind], ...)`.
`threads.index(thread)` resolves to the current iteration position because
handles are identity-distinct, so the pass walks the registry by index `i`:
a live task is kept, a dead one is replaced in place by a fresh task for
`input_stream_names[i]` and a relaunch event `(i, source)` is recorded. -/
def supervisor_pass_go (input_stream_names : List String)
    (relaunch : ℕ → String → CaptureTask) (alive : ℕ → Bool) :
    List CaptureTask → ℕ → ℕ →
      Except PyErr (List CaptureTask × List (ℕ × String) × ℕ)
  | [], _, fresh => .ok ([], [], fresh)
  | t :: rest, i, fresh =>
    if alive t.tid then
      match supervisor_pass_go input_stream_names relaunch alive rest (i + 1) fresh with
      | .error e => .error e
      | .ok (ts, evs, fr) => .ok (t :: ts, evs, fr)
    else
      match pyGet input_stream_names i with
      | .error e => .error e
      | .ok src =>
        match supervisor_pass_go input_stream_names relaunch alive rest (i + 1) (fresh + 1) with
        | .error e => .error e
        | .ok (ts, evs, fr) => .ok (relaunch fresh src :: ts, (i, src) :: evs, fr)

/-- One supervisor poll pass over the whole registry, starting at index 0. -/
def supervisor_pass (input_stream_names : List String)
    (relaunch : ℕ → String → CaptureTask) (alive : ℕ → Bool)
    (threads : List CaptureTask) (fresh : ℕ) :
    Except PyErr (List CaptureTask × List (ℕ × String) × ℕ) :=
  supervisor_pass_go input_stream_names relaunch alive threads 0 fresh

/-! Concrete collaborators and inputs used by witnesses and counterexamples. -/

/-- A probe environment that always fails; used where probing is unreachable. -/
def envFail : ProbeEnv := fun _ => .error "unreachable"

/-- A probe environment whose every source has one video stream starting at 0. -/
def envOneVideo : ProbeEnv :=
  fun _ => .ok [[("codec_type", .str "video"), ("start_time", .num 0)]]

/-- A probe environment in which the source named "bad" is unreachable and
every other source has a video stream with start time 1. -/
def envOneBad : ProbeEnv :=
  fun s =>
    if s = "bad" then .error "boom"
    else .ok [[("codec_type", .str "video"), ("start_time", .num 1)]]

/-- A relaunch collaborator producing a fresh handle for the given source. -/
def relaunchTask : ℕ → String → CaptureTask := fun i s => ⟨i, s, ""⟩

/-- A liveness oracle under which exactly the task with `tid = 0` is dead. -/
def aliveExceptZero : ℕ → Bool := fun tid => tid != 0

/-- The task registry after releasing the schedule built from sources
`["camA", "camB"]` with supplied delays `[2, 1]`: schedule order puts camB
first, so the task at registry index 0 records camB. -/
def camTasks : List CaptureTask := [⟨0, "camB", "camB_f"⟩, ⟨1, "camA", "camA_f"⟩]

/-- A clock advancing one second per tick. -/
def linClock : ℕ → ℚ := fun n => n

/-- A source address containing an IPv4-looking substring. -/
def srcRtsp : String := "rtsp://172.18.191.105:554/Streaming/Channels/1"

/-- An invocation instant. -/
def dtA : PyDateTime := ⟨2024, 5, 6, 7, 8, 9, 0⟩

/-- The same wall-clock second as `dtA`, half a second later. -/
def dtB : PyDateTime := ⟨2024, 5, 6, 7, 8, 9, 1 / 2⟩

/-- One whole second after `dtA`. -/
def dtC : PyDateTime := ⟨2024, 5, 6, 7, 8, 10, 0⟩

/-! ### Helper lemmas about the minimum of the delay components -/

theorem foldlMin_le_init : ∀ (l : List (String × ℚ)) (a : ℚ),
    l.foldl (fun acc q => min acc q.2) a ≤ a
  | [], a => le_refl a
  | p :: rest, a => (foldlMin_le_init rest (min a p.2)).trans (min_le_left _ _)

theorem foldlMin_le_mem {p : String × ℚ} : ∀ (l : List (String × ℚ)) (a : ℚ), p ∈ l →
    l.foldl (fun acc q => min acc q.2) a ≤ p.2 := by
  intro l
  induction l with
  | nil => intro a hp; cases hp
  | cons q rest ih =>
    intro a hp
    rcases List.mem_cons.mp hp with h | h
    · subst h
      exact (foldlMin_le_init rest (min a p.2)).trans (min_le_right _ _)
    · exact ih (min a q.2) h

theorem foldlMin_cases : ∀ (l : List (String × ℚ)) (a : ℚ),
    l.foldl (fun acc q => min acc q.2) a = a ∨
      ∃ p ∈ l, l.foldl (fun acc q => min acc q.2) a = p.2 := by
  intro l
  induction l with
  | nil => intro a; left; rfl
  | cons q rest ih =>
    intro a
    rcases ih (min a q.2) with h | ⟨p, hp, h⟩
    · rcases min_choice a q.2 with hm | hm
      · left; rw [List.foldl_cons, h, hm]
      · right; exact ⟨q, List.mem_cons_self _ _, by rw [List.foldl_cons, h, hm]⟩
    · right; exact ⟨p, List.mem_cons_of_mem _ hp, by rw [List.foldl_cons]; exact h⟩

theorem minSnd_le {q : List (String × ℚ)} {p : String × ℚ} (hp : p ∈ q) :
    minSnd q ≤ p.2 := by
  match q with
  | [] => cases hp
  | x :: rest =>
    rcases List.mem_cons.mp hp with h | h
    · subst h; exact foldlMin_le_init rest p.2
    · exact foldlMin_le_mem rest x.2 h

theorem minSnd_mem {q : List (String × ℚ)} (h : q ≠ []) : ∃ p ∈ q, minSnd q = p.2 := by
  match q with
  | [] => exact absurd rfl h
  | x :: rest =>
    rcases foldlMin_cases rest x.2 with h2 | ⟨p, hp, h2⟩
    · exact ⟨x, List.mem_cons_self _ _, h2⟩
    · exact ⟨p, List.mem_cons_of_mem _ hp, h2⟩

theorem minSnd_perm {q1 q2 : List (String × ℚ)} (h : q1.Perm q2) (hne : q1 ≠ []) :
    minSnd q1 = minSnd q2 := by
  have hne2 : q2 ≠ [] := by
    intro h2
    subst h2
    exact hne h.eq_nil
  obtain ⟨p1, hp1, he1⟩ := minSnd_mem hne
  obtain ⟨p2, hp2, he2⟩ := minSnd_mem hne2
  apply le_antisymm
  · rw [he2]; exact minSnd_le (h.symm.subset hp2)
  · rw [he1]; exact minSnd_le (h.subset hp1)

/-! ### Helper lemmas about probing -/

theorem probeAll_ok_fst {env : ProbeEnv} : ∀ {names : List String}
    {q : List (String × ℚ)}, probeAll env names = Except.ok q →
    q.map Prod.fst = names := by
  intro names
  induction names with
  | nil =>
    intro q h
    simp only [probeAll, Except.ok.injEq] at h
    subst h
    rfl
  | cons n rest ih =>
    intro q h
    simp only [probeAll] at h
    cases hd : get_stream_delay env n with
    | error e => rw [hd] at h; cases h
    | ok d =>
      rw [hd] at h
      cases hr : probeAll env rest with
      | error e => rw [hr] at h; cases h
      | ok q2 =>
        rw [hr] at h
        cases h
        simp [ih hr]

theorem probeAll_first_error {env : ProbeEnv} : ∀ {names : List String},
    (∃ s ∈ names, ∃ e, get_stream_delay env s = Except.error e) →
    ∃ s ∈ names, ∃ e, get_stream_delay env s = Except.error e ∧
      probeAll env names = Except.error e := by
  intro names
  induction names with
  | nil => rintro ⟨s, hs, _⟩; cases hs
  | cons n rest ih =>
    rintro ⟨s, hs, e, he⟩
    cases hd : get_stream_delay env n with
    | error e0 =>
      exact ⟨n, List.mem_cons_self _ _, e0, hd, by simp [probeAll, hd]⟩
    | ok d =>
      have hrest : ∃ s ∈ rest, ∃ e, get_stream_delay env s = Except.error e := by
        rcases List.mem_cons.mp hs with h | h
        · subst h; rw [hd] at he; cases he
        · exact ⟨s, h, e, he⟩
      obtain ⟨s2, hs2, e2, he2, hp2⟩ := ih hrest
      exact ⟨s2, List.mem_cons_of_mem _ hs2, e2, he2, by simp [probeAll, hd, hp2]⟩

theorem findVideoStream_ok_ne_nil : ∀ {streams : List StreamDict} {vs : StreamDict},
    findVideoStream streams = Except.ok vs → vs ≠ [] := by
  intro streams
  induction streams with
  | nil => intro vs h; cases h
  | cons s rest ih =>
    intro vs h
    cases hd : dictGet s "codec_type" with
    | none => simp only [findVideoStream, hd] at h; cases h
    | some v =>
      simp only [findVideoStream, hd] at h
      by_cases hv : v = PyVal.str "video"
      · rw [if_pos hv] at h
        cases h
        intro hnil
        subst hnil
        simp [dictGet] at hd
      · rw [if_neg hv] at h
        exact ih h

theorem get_stream_delay_error_shape {env : ProbeEnv} {s : String} {e : PyErr}
    (h : get_stream_delay env s = Except.error e) :
    (∃ m, e = PyErr.ffmpegError m) ∨ e = PyErr.stopIteration ∨
      (∃ k, e = PyErr.keyError k) ∨ e = PyErr.noVideoStream ∨
      (∃ m, e = PyErr.floatConvError m) := by
  unfold get_stream_delay at h
  cases hp : env s with
  | error m =>
    simp only [hp] at h
    cases h
    exact Or.inl ⟨m, rfl⟩
  | ok streams =>
    simp only [hp] at h
    cases hv : findVideoStream streams with
    | error e2 =>
      simp only [hv] at h
      cases h
      clear hp
      induction streams with
      | nil =>
        simp only [findVideoStream, Except.error.injEq] at hv
        subst hv
        exact Or.inr (Or.inl rfl)
      | cons s2 rest ih =>
        cases hd : dictGet s2 "codec_type" with
        | none =>
          simp only [findVideoStream, hd, Except.error.injEq] at hv
          subst hv
          exact Or.inr (Or.inr (Or.inl ⟨"codec_type", rfl⟩))
        | some v =>
          simp only [findVideoStream, hd] at hv
          by_cases hvv : v = PyVal.str "video"
          · rw [if_pos hvv] at hv; cases hv
          · rw [if_neg hvv] at hv; exact ih hv
    | ok vs =>
      simp only [hv] at h
      rw [if_neg (findVideoStream_ok_ne_nil hv)] at h
      cases hd : dictGet vs "start_time" with
      | none =>
        simp only [hd] at h
        cases h
        exact Or.inr (Or.inr (Or.inl ⟨"start_time", rfl⟩))
      | some v =>
        simp only [hd] at h
        cases v with
        | str m => cases h; exact Or.inr (Or.inr (Or.inr (Or.inr ⟨m, rfl⟩)))
        | num q => cases h

theorem probeAll_ne_configError {env : ProbeEnv} : ∀ {names : List String},
    probeAll env names ≠ Except.error PyErr.configError := by
  intro names
  induction names with
  | nil => intro h; cases h
  | cons n rest ih =>
    intro h
    simp only [probeAll] at h
    cases hd : get_stream_delay env n with
    | error e =>
      rw [hd] at h
      cases h
      rcases get_stream_delay_error_shape hd with ⟨m, hm⟩ | hm | ⟨k, hm⟩ | hm | ⟨m, hm⟩ <;>
        cases hm
    | ok d =>
      rw [hd] at h
      cases hr : probeAll env rest with
      | error e =>
        rw [hr] at h
        cases h
        exact ih hr
      | ok q => rw [hr] at h; cases h

/-! ### Helper lemmas about the schedule builder -/

theorem normalizeQueue_ok {queue q : List (String × ℚ)}
    (h : normalizeQueue queue = Except.ok q) :
    q.length = queue.length ∧ (q.map Prod.fst).Perm (queue.map Prod.fst) ∧
      (∀ p ∈ q, 0 ≤ p.2) ∧ (∃ p ∈ q, p.2 = 0) ∧
      q.Pairwise (fun a b : String × ℚ => a.2 ≤ b.2) := by
  simp only [normalizeQueue] at h
  by_cases hemp : (queue.insertionSort delayLe).isEmpty
  · rw [if_pos hemp] at h; cases h
  · rw [if_neg hemp] at h
    injection h with h
    subst h
    have hne : queue.insertionSort delayLe ≠ [] := by
      simpa [List.isEmpty_iff] using hemp
    have hperm := List.perm_insertionSort delayLe queue
    refine ⟨by simp, ?_, ?_, ?_, ?_⟩
    · have hfst : Prod.fst ∘ (fun p : String × ℚ =>
          (p.1, p.2 - minSnd (queue.insertionSort delayLe))) = Prod.fst :=
        funext fun x => rfl
      rw [List.map_map, hfst]
      exact hperm.map Prod.fst
    · rintro p hp
      simp only [List.mem_map] at hp
      obtain ⟨x, hx, rfl⟩ := hp
      simpa using sub_nonneg.mpr (minSnd_le hx)
    · obtain ⟨x, hx, hxe⟩ := minSnd_mem hne
      refine ⟨(x.1, x.2 - minSnd (queue.insertionSort delayLe)),
        List.mem_map_of_mem _ hx, ?_⟩
      simp only
      rw [hxe]
      exact sub_self x.2
    · have hsorted : List.Pairwise delayLe (queue.insertionSort delayLe) :=
        List.sorted_insertionSort delayLe queue
      exact hsorted.map _ (fun a b hab => by
        simpa using sub_le_sub_right hab (minSnd (queue.insertionSort delayLe)))

theorem pairSources_ok_fst {names : List String} {delays : Option (List ℚ)}
    {env : ProbeEnv} {queue : List (String × ℚ)}
    (hlen : ∀ ds, delays = some ds → ds ≠ [] → ds.length = names.length)
    (h : pairSources names delays env = Except.ok queue) :
    queue.map Prod.fst = names := by
  unfold pairSources at h
  cases ht : pyTruthy delays with
  | false =>
    rw [ht, if_neg Bool.false_ne_true] at h
    exact probeAll_ok_fst h
  | true =>
    rw [ht, if_pos rfl] at h
    injection h with h
    subst h
    cases delays with
    | none => simp [pyTruthy] at ht
    | some ds =>
      have hne : ds ≠ [] := by
        intro hnil
        subst hnil
        simp [pyTruthy] at ht
      exact List.map_fst_zip names ds (le_of_eq (hlen ds rfl hne).symm)

theorem create_queue_ne_configError (names : List String) (delays : Option (List ℚ))
    (env : ProbeEnv) : create_queue names delays env ≠ Except.error PyErr.configError := by
  intro h
  unfold create_queue at h
  cases hp : pairSources names delays env with
  | error e =>
    simp only [hp] at h
    cases h
    unfold pairSources at hp
    cases ht : pyTruthy delays with
    | false =>
      rw [ht, if_neg Bool.false_ne_true] at hp
      exact probeAll_ne_configError hp
    | true => rw [ht, if_pos rfl] at hp; cases hp
  | ok queue =>
    simp only [hp] at h
    simp only [normalizeQueue] at h
    by_cases hemp : (queue.insertionSort delayLe).isEmpty
    · rw [if_pos hemp] at h; cases h
    · rw [if_neg hemp] at h; cases h

/-- C2: for every non-empty input whose supplied offsets (when present and
non-empty) match the source count, a successfully built schedule has the
input's length, contains each input source exactly once, has all delays
non-negative with minimum exactly 0, and is non-decreasing in delay. -/
theorem create_queue_schedule_spec (names : List String) (delays : Option (List ℚ))
    (env : ProbeEnv) (q : List (String × ℚ))
    (hnames : names ≠ [])
    (hlen : ∀ ds, delays = some ds → ds ≠ [] → ds.length = names.length)
    (hq : create_queue names delays env = Except.ok q) :
    q.length = names.length ∧ (q.map Prod.fst).Perm names ∧
      (∀ p ∈ q, 0 ≤ p.2) ∧ (∃ p ∈ q, p.2 = 0) ∧
      q.Pairwise (fun a b : String × ℚ => a.2 ≤ b.2) := by
  unfold create_queue at hq
  cases hp : pairSources names delays env with
  | error e => simp only [hp] at hq; cases hq
  | ok queue =>
    simp only [hp] at hq
    have hfst := pairSources_ok_fst hlen hp
    obtain ⟨hlen2, hperm, hnonneg, hzero, hpair⟩ := normalizeQueue_ok hq
    have hqlen : queue.length = names.length := by
      rw [← hfst, List.length_map]
    refine ⟨hlen2.trans hqlen, ?_, hnonneg, hzero, hpair⟩
    rw [← hfst]
    exact hperm

/-- Witness for C2 at the spec's concrete scenario: sources camA, camB with
offsets 3 and 1 give the schedule [(camB, 0), (camA, 2)]. -/
theorem create_queue_schedule_spec_witness :
    create_queue ["camA", "camB"] (some [3, 1]) envFail =
        Except.ok [("camB", 0), ("camA", 2)] ∧
      ([("camB", (0 : ℚ)), ("camA", 2)].length = ["camA", "camB"].length ∧
        ([("camB", (0 : ℚ)), ("camA", 2)].map Prod.fst).Perm ["camA", "camB"] ∧
        (∀ p ∈ [("camB", (0 : ℚ)), ("camA", 2)], 0 ≤ p.2) ∧
        (∃ p ∈ [("camB", (0 : ℚ)), ("camA", 2)], p.2 = 0) ∧
        [("camB", (0 : ℚ)), ("camA", 2)].Pairwise
          (fun a b : String × ℚ => a.2 ≤ b.2)) := by
  have h : create_queue ["camA", "camB"] (some [3, 1]) envFail =
      Except.ok [("camB", 0), ("camA", 2)] := by
    norm_num [create_queue, pairSources, pyTruthy, normalizeQueue, minSnd, delayLe]
  refine ⟨h, create_queue_schedule_spec _ _ _ _ (List.cons_ne_nil _ _) ?_ h⟩
  intro ds hds _
  cases hds
  rfl

/-- Stability of the modelled `queue.sort(key=lambda x: x[1])`: the sorted
list restricted to any fixed delay value equals the input restricted to that
value, in the input's order. -/
theorem insertionSort_filter_fixed_delay (queue : List (String × ℚ)) (v : ℚ) :
    (queue.insertionSort delayLe).filter (fun p => p.2 = v) =
      queue.filter (fun p => p.2 = v) := by
  have hpw : (queue.filter (fun p => p.2 = v)).Pairwise delayLe := by
    apply List.pairwise_of_forall_mem_list
    intro a ha b hb
    have ha2 : a.2 = v := by simpa using (List.mem_filter.mp ha).2
    have hb2 : b.2 = v := by simpa using (List.mem_filter.mp hb).2
    show a.2 ≤ b.2
    rw [ha2, hb2]
  have hsub : (queue.filter (fun p => p.2 = v)).Sublist (queue.insertionSort delayLe) :=
    List.sublist_insertionSort hpw (List.filter_sublist queue)
  have hsub2 : (queue.filter (fun p => p.2 = v)).Sublist
      ((queue.insertionSort delayLe).filter (fun p => p.2 = v)) := by
    have h2 := hsub.filter (fun p => decide (p.2 = v))
    rw [List.filter_filter] at h2
    simpa only [Bool.and_self] using h2
  have hpermf : ((queue.insertionSort delayLe).filter (fun p => p.2 = v)).Perm
      (queue.filter (fun p => p.2 = v)) :=
    (List.perm_insertionSort delayLe queue).filter _
  exact (hsub2.eq_of_length hpermf.length_eq.symm).symm

/-- C4: with supplied offsets, sources sharing an offset value keep their
input order in the built schedule (the sort of line 93 is stable); position
in the schedule carries offset `v` to delay `v` minus the minimum offset. -/
theorem create_queue_stable (names : List String) (ds : List ℚ) (env : ProbeEnv)
    (q : List (String × ℚ)) (v : ℚ)
    (hds : ds ≠ []) (hlen : ds.length = names.length)
    (hq : create_queue names (some ds) env = Except.ok q) :
    (q.filter (fun p => p.2 = v - minSnd (names.zip ds))).map Prod.fst =
      ((names.zip ds).filter (fun p => p.2 = v)).map Prod.fst := by
  have hT : pyTruthy (some ds) = true := by
    simp [pyTruthy, List.isEmpty_iff, hds]
  have hpq : pairSources names (some ds) env = Except.ok (names.zip ds) := by
    unfold pairSources
    rw [hT, if_pos rfl]
    rfl
  unfold create_queue at hq
  simp only [hpq] at hq
  simp only [normalizeQueue] at hq
  by_cases hemp : ((names.zip ds).insertionSort delayLe).isEmpty
  · rw [if_pos hemp] at hq; cases hq
  · rw [if_neg hemp] at hq
    injection hq with hq
    subst hq
    have hsne : (names.zip ds).insertionSort delayLe ≠ [] := by
      simpa [List.isEmpty_iff] using hemp
    have hperm := List.perm_insertionSort delayLe (names.zip ds)
    have hmin : minSnd ((names.zip ds).insertionSort delayLe) =
        minSnd (names.zip ds) := minSnd_perm hperm hsne
    rw [List.filter_map, List.map_map]
    have hcomp : Prod.fst ∘ (fun p : String × ℚ =>
        (p.1, p.2 - minSnd ((names.zip ds).insertionSort delayLe))) = Prod.fst :=
      funext fun x => rfl
    rw [hcomp]
    have hpred : ((names.zip ds).insertionSort delayLe).filter
        ((fun p : String × ℚ => decide (p.2 = v - minSnd (names.zip ds))) ∘
          (fun p : String × ℚ =>
            (p.1, p.2 - minSnd ((names.zip ds).insertionSort delayLe)))) =
        ((names.zip ds).insertionSort delayLe).filter (fun p => p.2 = v) := by
      apply List.filter_congr
      intro a _
      simp only [Function.comp, hmin, decide_eq_decide]
      exact sub_left_inj
    rw [hpred, insertionSort_filter_fixed_delay]

/-- Witness for C4: sources a, b, c with offsets 2, 1, 2 — a and c tie and
stay in input order in the schedule [(b, 0), (a, 1), (c, 1)]. -/
theorem create_queue_stable_witness :
    create_queue ["a", "b", "c"] (some [2, 1, 2]) envFail =
        Except.ok [("b", 0), ("a", 1), ("c", 1)] ∧
      ([("b", (0 : ℚ)), ("a", 1), ("c", 1)].filter
          (fun p => p.2 = 2 - minSnd (["a", "b", "c"].zip [2, 1, 2]))).map Prod.fst =
        ((["a", "b", "c"].zip [2, 1, 2]).filter
          (fun p => p.2 = 2)).map Prod.fst := by
  have h : create_queue ["a", "b", "c"] (some [2, 1, 2]) envFail =
      Except.ok [("b", 0), ("a", 1), ("c", 1)] := by
    norm_num [create_queue, pairSources, pyTruthy, normalizeQueue, minSnd, delayLe]
  exact ⟨h, create_queue_stable _ _ _ _ 2 (List.cons_ne_nil _ _) rfl h⟩

/-- C5 (amended): with a non-empty supplied offsets list whose length differs
from the sources list, the run fails with the configuration error before any
schedule is built or capture launched. -/
theorem main_setup_mismatch_config_error (names : List String) (ds : List ℚ)
    (env : ProbeEnv) (hnames : names ≠ []) (hds : ds ≠ [])
    (hlen : names.length ≠ ds.length) :
    main_setup names (some ds) env = Except.error PyErr.configError := by
  simp only [main_setup]
  rw [if_neg (by simpa [List.isEmpty_iff] using hds), if_pos hlen]

/-- Counterexample to C5 as stated: an empty supplied offsets list has a
length different from the non-empty sources list, yet no configuration error
is raised — `if delays:` is false for an empty list, so the run probes and
builds a schedule instead. -/
theorem main_setup_empty_offsets_counterexample :
    (["camA"].length != ([] : List ℚ).length) = true ∧
      main_setup ["camA"] (some []) envOneVideo = Except.ok [("camA", 0)] := by
  refine ⟨rfl, ?_⟩
  simp [main_setup, create_queue, pairSources, probeAll, get_stream_delay,
    envOneVideo, findVideoStream, dictGet, pyFloat, pyTruthy, normalizeQueue,
    minSnd, delayLe, List.find?]

/-- Witness for the amended C5. -/
theorem main_setup_mismatch_config_error_witness :
    (["camA", "camB"] : List String) ≠ [] ∧ ([1] : List ℚ) ≠ [] ∧
      ["camA", "camB"].length ≠ ([1] : List ℚ).length ∧
      main_setup ["camA", "camB"] (some [1]) envFail =
        Except.error PyErr.configError :=
  ⟨List.cons_ne_nil _ _, List.cons_ne_nil _ _, by decide,
    main_setup_mismatch_config_error _ _ _ (List.cons_ne_nil _ _)
      (List.cons_ne_nil _ _) (by decide)⟩

/-- C9: an empty supplied offsets list behaves exactly as if offsets had been
omitted (the builder probes every source), and the mismatched-count
configuration error is not raised. -/
theorem main_setup_empty_offsets_as_omitted (names : List String) (env : ProbeEnv) :
    main_setup names (some []) env = main_setup names none env ∧
      main_setup names (some []) env ≠ Except.error PyErr.configError := by
  have heq : main_setup names (some []) env = main_setup names none env := rfl
  refine ⟨heq, ?_⟩
  rw [heq]
  exact create_queue_ne_configError names none env

/-- Witness for C9. -/
theorem main_setup_empty_offsets_as_omitted_witness :
    main_setup ["camA"] (some []) envOneVideo = main_setup ["camA"] none envOneVideo ∧
      main_setup ["camA"] (some []) envOneVideo ≠ Except.error PyErr.configError :=
  main_setup_empty_offsets_as_omitted ["camA"] envOneVideo

/-- C6: when offsets are omitted, a probe failure for any source makes the
whole schedule construction fail with that probe error, and a successful
construction covers every source — no partial schedule exists. -/
theorem create_queue_probe_failure_total (names : List String) (env : ProbeEnv) :
    ((∃ s ∈ names, ∃ e, get_stream_delay env s = Except.error e) →
      ∃ s ∈ names, ∃ e, get_stream_delay env s = Except.error e ∧
        create_queue names none env = Except.error e) ∧
    (∀ q, create_queue names none env = Except.ok q →
      (q.map Prod.fst).Perm names) := by
  have hps : pairSources names none env = probeAll env names := rfl
  constructor
  · intro hfail
    obtain ⟨s, hs, e, he, hperr⟩ := probeAll_first_error hfail
    refine ⟨s, hs, e, he, ?_⟩
    unfold create_queue
    rw [hps, hperr]
  · intro q hq
    unfold create_queue at hq
    rw [hps] at hq
    cases hpa : probeAll env names with
    | error e => rw [hpa] at hq; cases hq
    | ok queue =>
      rw [hpa] at hq
      have hq2 : normalizeQueue queue = Except.ok q := hq
      obtain ⟨_, hperm, _, _, _⟩ := normalizeQueue_ok hq2
      exact (probeAll_ok_fst hpa) ▸ hperm

/-- Witness for C6: probing source "bad" fails, and the whole build fails
with exactly that probe error. -/
theorem create_queue_probe_failure_total_witness :
    get_stream_delay envOneBad "bad" = Except.error (PyErr.ffmpegError "boom") ∧
      (∃ s ∈ ["good", "bad"], ∃ e, get_stream_delay envOneBad s = Except.error e ∧
        create_queue ["good", "bad"] none envOneBad = Except.error e) := by
  have hbad : get_stream_delay envOneBad "bad" =
      Except.error (PyErr.ffmpegError "boom") := by
    norm_num [get_stream_delay, envOneBad]
  exact ⟨hbad, (create_queue_probe_failure_total ["good", "bad"] envOneBad).1
    ⟨"bad", by decide, PyErr.ffmpegError "boom", hbad⟩⟩

/-- Errors of the video-stream selection are StopIteration or KeyError only. -/
theorem findVideoStream_error_shape : ∀ {streams : List StreamDict} {e : PyErr},
    findVideoStream streams = Except.error e →
    e = PyErr.stopIteration ∨ ∃ k, e = PyErr.keyError k := by
  intro streams
  induction streams with
  | nil =>
    intro e hv
    simp only [findVideoStream, Except.error.injEq] at hv
    exact Or.inl hv.symm
  | cons s2 rest ih =>
    intro e hv
    cases hd : dictGet s2 "codec_type" with
    | none =>
      simp only [findVideoStream, hd, Except.error.injEq] at hv
      exact Or.inr ⟨"codec_type", hv.symm⟩
    | some v =>
      simp only [findVideoStream, hd] at hv
      by_cases hvv : v = PyVal.str "video"
      · rw [if_pos hvv] at hv; cases hv
      · rw [if_neg hvv] at hv; exact ih hv

/-- C10: the "No video stream found" ValueError branch of `get_stream_delay`
is unreachable — the selected stream always satisfies the codec predicate, so
it is a non-empty dict, and an absent video stream raises StopIteration at
the `next` call before the guard. -/
theorem get_stream_delay_never_no_video (env : ProbeEnv) (s : String) :
    get_stream_delay env s ≠ Except.error PyErr.noVideoStream := by
  intro h
  unfold get_stream_delay at h
  cases hp : env s with
  | error m => simp only [hp] at h; simp at h
  | ok streams =>
    simp only [hp] at h
    cases hv : findVideoStream streams with
    | error e =>
      simp only [hv] at h
      cases h
      rcases findVideoStream_error_shape hv with h2 | ⟨k, h2⟩ <;> cases h2
    | ok vs =>
      simp only [hv] at h
      rw [if_neg (findVideoStream_ok_ne_nil hv)] at h
      cases hd : dictGet vs "start_time" with
      | none => simp only [hd] at h; simp at h
      | some v =>
        simp only [hd] at h
        cases v with
        | str m => simp [pyFloat] at h
        | num q2 => simp [pyFloat] at h

/-- Witness for C10. -/
theorem get_stream_delay_never_no_video_witness :
    get_stream_delay envOneVideo "cam" ≠ Except.error PyErr.noVideoStream :=
  get_stream_delay_never_no_video envOneVideo "cam"

/-- Invariant of the release loop: from tick `k` on, the launches correspond
position by position to the queue entries, each launch tick's clock value has
passed `begin + delay`, the launch ticks strictly increase, and no launch tick
precedes `k`. -/
theorem start_queue_go_spec (clock : ℕ → ℚ) (hcl : ∀ d k, ∃ j, d ≤ clock (k + j))
    (tbegin : ℚ) : ∀ (queue : List (String × ℚ)) (k : ℕ),
    List.Forall₂ (fun (e : String × ℚ) (r : String × ℕ) =>
        r.1 = e.1 ∧ tbegin + e.2 ≤ clock r.2)
      queue (start_queue_go clock hcl tbegin queue k) ∧
    (start_queue_go clock hcl tbegin queue k).Pairwise (fun a b => a.2 < b.2) ∧
    ∀ r ∈ start_queue_go clock hcl tbegin queue k, k ≤ r.2 := by
  intro queue
  induction queue with
  | nil =>
    intro k
    refine ⟨List.Forall₂.nil, List.Pairwise.nil, ?_⟩
    intro r hr
    cases hr
  | cons e rest ih =>
    intro k
    obtain ⟨s, d⟩ := e
    obtain ⟨ih1, ih2, ih3⟩ := ih (k + Nat.find (hcl (tbegin + d) k) + 1)
    refine ⟨?_, ?_, ?_⟩
    · exact List.Forall₂.cons ⟨rfl, Nat.find_spec (hcl (tbegin + d) k)⟩ ih1
    · refine List.Pairwise.cons ?_ ih2
      intro b hb
      exact Nat.lt_of_succ_le (ih3 b hb)
    · intro r hr
      rcases List.mem_cons.mp hr with h | h
      · subst h
        exact Nat.le_add_right k _
      · exact le_trans (Nat.le_succ_of_le (Nat.le_add_right k _)) (ih3 r h)

/-- C7: the release scheduler drains the schedule strictly in its given
order — the returned launches correspond position by position to the schedule
entries — and each entry's launch happens at a clock reading no earlier than
the shared start instant `clock 0` plus the entry's delay; launch ticks are
strictly increasing, so launches occur strictly in schedule order. -/
theorem start_queue_release_spec (clock : ℕ → ℚ)
    (hcl : ∀ d k, ∃ j, d ≤ clock (k + j)) (queue : List (String × ℚ)) :
    List.Forall₂ (fun (e : String × ℚ) (r : String × ℕ) =>
        r.1 = e.1 ∧ clock 0 + e.2 ≤ clock r.2)
      queue (start_queue clock hcl queue) ∧
    (start_queue clock hcl queue).Pairwise (fun a b => a.2 < b.2) := by
  obtain ⟨h1, h2, _⟩ := start_queue_go_spec clock hcl (clock 0) queue 1
  exact ⟨h1, h2⟩

/-- The one-second-per-tick clock passes every deadline. -/
theorem linClock_unbounded : ∀ (d : ℚ) (k : ℕ), ∃ j, d ≤ linClock (k + j) := by
  intro d k
  obtain ⟨j, hj⟩ := exists_nat_ge d
  refine ⟨j, hj.trans ?_⟩
  simp only [linClock]
  exact_mod_cast Nat.le_add_left j k

/-- Witness for C7 on the schedule [(camB, 0), (camA, 2)]. -/
theorem start_queue_release_spec_witness :
    List.Forall₂ (fun (e : String × ℚ) (r : String × ℕ) =>
        r.1 = e.1 ∧ linClock 0 + e.2 ≤ linClock r.2)
      [("camB", 0), ("camA", 2)]
      (start_queue linClock linClock_unbounded [("camB", 0), ("camA", 2)]) ∧
    (start_queue linClock linClock_unbounded
      [("camB", 0), ("camA", 2)]).Pairwise (fun a b => a.2 < b.2) :=
  start_queue_release_spec linClock linClock_unbounded [("camB", 0), ("camA", 2)]

/-- C1 evaluation on a run whose schedule reorders the sources: from sources
[camA, camB] with supplied delays [2, 1] the schedule is [(camB, 0), (camA, 1)],
so the task at registry index 0 records camB; when it is found dead, the
supervisor relaunches `input_stream_names[0] = "camA"` — a different source
than the dead task was recording — although the registry entry is replaced in
place and exactly one relaunch event occurs. -/
theorem supervisor_restart_wrong_source :
    create_queue ["camA", "camB"] (some [2, 1]) envFail =
        Except.ok [("camB", 0), ("camA", 1)] ∧
      camTasks.get? 0 = some ⟨0, "camB", "camB_f"⟩ ∧
      supervisor_pass ["camA", "camB"] relaunchTask aliveExceptZero camTasks 2 =
        Except.ok ([⟨2, "camA", ""⟩, ⟨1, "camA", "camA_f"⟩], [(0, "camA")], 3) ∧
      (("camB" != "camA") = true) := by
  refine ⟨?_, rfl, rfl, rfl⟩
  norm_num [create_queue, pairSources, pyTruthy, normalizeQueue, minSnd, delayLe]

/-- C3 evaluation: every launch attempt fails with NameError, because line 69
builds the thread arguments with `get_filename(input_stream_name)` and the
module defines `make_filename` but never `get_filename`; no thread is started
and no handle is returned. -/
theorem create_thread_name_error :
    create_thread dtA srcRtsp none 0 =
      Except.error (PyErr.nameError "get_filename") := rfl

/-- Appending a common prefix and suffix is injective on strings. -/
theorem string_append_inj {pre suf a b : String}
    (h : pre ++ a ++ suf = pre ++ b ++ suf) : a = b := by
  apply String.ext
  have hd := congrArg String.data h
  simp only [String.data_append] at hd
  exact List.append_cancel_left (List.append_cancel_right hd)

/-- C8 (amended): for a source whose name contains an IPv4-looking substring,
two invocations produce the same filename exactly when their wall-clock
instants render to the same whole-second `%Y-%m-%d_%H-%M-%S` string; the
derived name is unique only at one-second resolution, and invocations within
the same second collide. -/
theorem make_filename_second_resolution (stream_name ip : String)
    (t1 t2 : PyDateTime) (hip : re_search_ip stream_name = some ip) :
    make_filename t1 stream_name = make_filename t2 stream_name ↔
      strftimeYmdHms t1 = strftimeYmdHms t2 := by
  unfold make_filename
  rw [hip]
  constructor
  · intro h
    injection h with h
    exact string_append_inj h
  · intro h
    rw [h]

/-- Counterexample to C8 as stated: two invocations for the same source half
a second apart (same wall-clock second, different sub-second part) produce
the very same filename. -/
theorem make_filename_subsecond_counterexample :
    dtB.subsec - dtA.subsec = 1 / 2 ∧ (1 / 2 : ℚ) < 1 ∧
      dtA.year = dtB.year ∧ dtA.month = dtB.month ∧ dtA.day = dtB.day ∧
      dtA.hour = dtB.hour ∧ dtA.minute = dtB.minute ∧ dtA.second = dtB.second ∧
      make_filename dtA srcRtsp = make_filename dtB srcRtsp := by
  refine ⟨by norm_num [dtA, dtB], by norm_num, rfl, rfl, rfl, rfl, rfl, rfl, rfl⟩

/-- Witness for the amended C8: one whole second apart, the two filenames
derived for the same source differ exactly when the rendered seconds differ. -/
theorem make_filename_second_resolution_witness :
    re_search_ip srcRtsp = some "172.18.191.105" ∧
      (make_filename dtA srcRtsp = make_filename dtC srcRtsp ↔
        strftimeYmdHms dtA = strftimeYmdHms dtC) :=
  ⟨rfl, make_filename_second_resolution srcRtsp "172.18.191.105" dtA dtC rfl⟩
